import Mathlib

/-!
# Verification of the Tock hardware-in-the-loop CI harness core

A shallow embedding, in Lean 4, of the board/test abstraction and execution
engine of the `tools/hwci` modules of the Tock repository:

* `MockSerialPort` (tools/hwci/utils/serial_port.py) — the in-memory serial
  transport double: its `write`, `expect`, `flush_buffer` operations over an
  explicit state (the queued chunks and the accumulated match buffer).
* `SerialPort.expect` (tools/hwci/utils/serial_port.py) — the real
  transport's `expect`, modelled over the outcome of the external pexpect
  call it wraps.
* `OneshotTest.test` (tools/hwci/utils/test_helpers/oneshot.py) — the
  erase / flush / flash-kernel / flash-apps / observe sequence, modelled as
  the event trace it issues against a board whose operations may fail.
* `AnalyzeConsoleTest.oneshot_test` (tools/hwci/tests/console_hello_test.py,
  tools/hwci/utils/test_helpers/analyze_console.py) — the line-capture loop
  and the call of the scenario's `analyze` predicate.
* `MultiAlarmSimpleTest.analyze` (tools/hwci/tests/multi_alarm_simple_test.py)
  and `AdcTest.analyze` (tools/hwci/tests/adc.py) — two concrete analysis
  predicates over captured console lines.
* `main` (tools/hwci/core/main.py) — the driver's run/except/finally block,
  its exit codes and its guaranteed close of the board's transport.

Modelling conventions:
* Byte strings and decoded text are both `List Char` (`Bytes`); the test
  inputs of interest are ASCII, where UTF-8 decoding with lossy replacement
  is the identity.
* A regex pattern handed to the mock transport's `expect` is modelled as a
  literal byte string, and `re.compile(p).search(s)` as substring
  containment `p <:+: s` (the claims under study use patterns as literal
  markers).
* Wall-clock time in `MockSerialPort.expect` is modelled by fuel: the
  `while time.time() < end_time` loop runs at most `fuel` iterations, one
  unit per `buffer.get(timeout=0.1)` poll, so fuel plays the role of the
  timeout measured in poll periods.
* Python exceptions are the `error` side of `Except String`; `raise` in an
  analysis predicate is `Except.error msg`.
-/

namespace HwCi

/-- Byte strings / decoded text: `List Char`. -/
abbrev Bytes := List Char

/-! ## MockSerialPort (tools/hwci/utils/serial_port.py, class MockSerialPort)

State: `self.buffer` (a FIFO `queue.Queue` of written chunks) and
`self.accumulated_data` (the bytes accumulated by `expect` so far). -/

/-- The state of a `MockSerialPort`: the FIFO queue of chunks written by
`write` and not yet consumed by `expect`, and `accumulated_data`. -/
structure MockSerialPort where
  buffer : List Bytes
  accumulated_data : Bytes
deriving DecidableEq, Repr

/-- `MockSerialPort.__init__`: empty queue, empty accumulated data. -/
def MockSerialPort.init : MockSerialPort := ⟨[], []⟩

/-- `MockSerialPort.write(data)`: enqueue the chunk on `self.buffer`. -/
def MockSerialPort.write (s : MockSerialPort) (data : Bytes) : MockSerialPort :=
  { s with buffer := s.buffer ++ [data] }

/-- `MockSerialPort.expect(pattern, timeout)`: poll the queue, appending each
dequeued chunk to `accumulated_data` and searching for the pattern in the
accumulated data; return the accumulated data on a match, `None` once the
deadline passes. `fuel` is the number of remaining loop iterations (the
deadline measured in `buffer.get(timeout=0.1)` polls); an empty queue burns
one iteration waiting, a non-empty queue yields one chunk per iteration. -/
def MockSerialPort.expect (fuel : Nat) (s : MockSerialPort) (pat : Bytes) :
    Option Bytes × MockSerialPort :=
  match fuel with
  | 0 => (none, s)
  | fuel + 1 =>
    match s.buffer with
    | [] => MockSerialPort.expect fuel s pat
    | data :: rest =>
      let acc := s.accumulated_data ++ data
      let s' : MockSerialPort := ⟨rest, acc⟩
      if pat <:+: acc then (some acc, s')
      else MockSerialPort.expect fuel s' pat

/-- `MockSerialPort.flush_buffer()`: clear `accumulated_data` and drain the
queue. -/
def MockSerialPort.flush_buffer (_ : MockSerialPort) : MockSerialPort :=
  ⟨[], []⟩

/-! ## SerialPort.expect (tools/hwci/utils/serial_port.py, class SerialPort)

The real transport wraps `pexpect`: `self.child.expect(pattern, timeout)`
either matches (leaving the matched text in `self.child.after`), raises
`TIMEOUT`, or raises `EOF`. That outcome is the external input to the
`try`/`except` ladder of `SerialPort.expect`. -/

/-- Outcome of the external `fdpexpect` call inside `SerialPort.expect`. -/
inductive PexpectOutcome where
  | matched (after : Bytes)
  | timeout
  | eof
deriving DecidableEq, Repr

/-- `SerialPort.expect(pattern, timeout)`: return `self.child.after` on a
match; `except TIMEOUT: return None`; `except EOF: return None`. -/
def SerialPort.expect : PexpectOutcome → Option Bytes
  | .matched after => some after
  | .timeout => none
  | .eof => none

/-! ## Python string helpers

`str.strip()`, `str.split()` (no argument: split on whitespace runs,
discarding empty fields) and `int(str)` as used by the analysis
predicates. -/

/-- Decidable equality of analysis outcomes, for evaluating the models at
concrete inputs. -/
instance {ε α : Type} [DecidableEq ε] [DecidableEq α] : DecidableEq (Except ε α) :=
  fun a b =>
    match a, b with
    | .ok x, .ok y =>
      if h : x = y then .isTrue (by rw [h]) else .isFalse fun hc => h (Except.ok.inj hc)
    | .error x, .error y =>
      if h : x = y then .isTrue (by rw [h]) else .isFalse fun hc => h (Except.error.inj hc)
    | .ok _, .error _ => .isFalse fun hc => Except.noConfusion hc
    | .error _, .ok _ => .isFalse fun hc => Except.noConfusion hc

/-- The default whitespace set of Python's `str.strip` / `str.split`. -/
def pyIsSpace (c : Char) : Bool :=
  c == ' ' || c == '\t' || c == '\n' || c == '\r' || c == '\x0b' || c == '\x0c'

/-- `str.strip()`: drop leading and trailing whitespace. -/
def pyStrip (s : Bytes) : Bytes :=
  ((s.dropWhile pyIsSpace).reverse.dropWhile pyIsSpace).reverse

/-- The splitting loop behind `pySplit`, carrying the current token in
reverse. -/
def pySplitGo : List Char → List Char → List (List Char)
  | [], tok => if tok = [] then [] else [tok.reverse]
  | c :: rest, tok =>
    if pyIsSpace c then
      if tok = [] then pySplitGo rest []
      else tok.reverse :: pySplitGo rest []
    else pySplitGo rest (c :: tok)

/-- `str.split()` with no argument: split on runs of whitespace, with no
empty fields. -/
def pySplit (s : List Char) : List (List Char) :=
  pySplitGo s []

/-- Value of a decimal digit character. -/
def digitVal (c : Char) : Option Nat :=
  if '0' ≤ c ∧ c ≤ '9' then some (c.toNat - '0'.toNat) else none

/-- A non-empty all-digit token read as a natural number. -/
def pyDigits (s : List Char) : Option Nat :=
  match s with
  | [] => none
  | _ => s.foldl (fun acc c => acc.bind fun n => (digitVal c).map fun d => 10 * n + d)
      (some 0)

/-- `int(token)` on a whitespace-free token: an optional sign followed by
decimal digits, `None` standing for the `ValueError` Python raises on
anything else. (Python additionally allows underscore group separators
inside the digits; the console lines under study never contain them.) -/
def pyInt (s : List Char) : Option Int :=
  match s with
  | '+' :: rest => (pyDigits rest).map Int.ofNat
  | '-' :: rest => (pyDigits rest).map fun n => -(n : Int)
  | _ => (pyDigits s).map Int.ofNat

/-! ## MultiAlarmSimpleTest.analyze (tools/hwci/tests/multi_alarm_simple_test.py)

For each line: `tokens = line.strip().split()`; lines with at least three
tokens whose first token parses as the integer 1 or 2 bump that alarm's
count (a `ValueError` from `int` skips the line). Then
`raise` if `count1 < 2 or count2 < 1`, and `raise` if `count1 < 2 * count2`;
otherwise the test passes. -/

namespace MultiAlarmSimpleTest

/-- The counting loop of `MultiAlarmSimpleTest.analyze`: the final
`(alarm_counts[1], alarm_counts[2])`. -/
def countAlarms (lines : List Bytes) : Nat × Nat :=
  lines.foldl
    (fun cs line =>
      let tokens := pySplit (pyStrip line)
      if 3 ≤ tokens.length then
        match pyInt (tokens.headD []) with
        | some i =>
          if i = 1 then (cs.1 + 1, cs.2)
          else if i = 2 then (cs.1, cs.2 + 1)
          else cs
        | none => cs
      else cs)
    (0, 0)

/-- `MultiAlarmSimpleTest.analyze(lines)`: count the alarms, then raise on
`count1 < 2 or count2 < 1`, then raise on `count1 < 2 * count2`. -/
def analyze (lines : List Bytes) : Except String Unit :=
  let cs := countAlarms lines
  if cs.1 < 2 ∨ cs.2 < 1 then
    .error "MultiAlarmSimpleTest failed: Not enough alarms fired"
  else if cs.1 < 2 * cs.2 then
    .error "MultiAlarmSimpleTest failed: Alarm 1 did not fire at least twice as often as Alarm 2"
  else .ok ()

end MultiAlarmSimpleTest

/-! ## AdcTest.analyze (tools/hwci/tests/adc.py)

The scanning loop sets `adc_driver_found` on a line containing
"ADC driver exists", sets `adc_readings_found` and `break`s on a line
containing "ADC Reading:", and `return`s (pass) on a line containing
"No ADC driver!". After the loop: pass when driver and readings were found,
raise when only the driver was found, pass otherwise. -/

namespace AdcTest

/-- Marker line: the ADC driver announced itself. -/
def sDriverExists : Bytes := "ADC driver exists".data

/-- Marker line: a sample was printed. -/
def sReading : Bytes := "ADC Reading:".data

/-- Marker line: the board has no ADC driver. -/
def sNoDriver : Bytes := "No ADC driver!".data

/-- How the scanning loop of `AdcTest.analyze` ended: the early `return`
(test passes), or falling out of the loop (normally or via `break`) with
the two flags. -/
inductive Scan where
  | earlyPass
  | fell (adc_driver_found adc_readings_found : Bool)
deriving DecidableEq, Repr

/-- The scanning loop of `AdcTest.analyze`, with the running values of
`adc_driver_found` and `adc_readings_found`. -/
def scan : List Bytes → Bool → Bool → Scan
  | [], d, r => .fell d r
  | line :: rest, d, r =>
    let d := d || decide (sDriverExists <:+: line)
    if sReading <:+: line then .fell d true
    else if sNoDriver <:+: line then .earlyPass
    else scan rest d r

/-- `AdcTest.analyze(lines)`. -/
def analyze (lines : List Bytes) : Except String Unit :=
  match scan lines false false with
  | .earlyPass => .ok ()
  | .fell d r =>
    if d && r then .ok ()
    else if d then .error "ADC Test failed: Driver found but no readings."
    else .ok ()

end AdcTest

/-! ## AnalyzeConsoleTest.oneshot_test
(tools/hwci/tests/console_hello_test.py lines 28-44, and identically
tools/hwci/utils/test_helpers/analyze_console.py lines 5-21)

The loop calls `serial.expect(".*\r\n", timeout=5)` repeatedly; a truthy
result is decoded (identity on the ASCII lines under study), stripped and
appended to `lines`; a falsy result (`None`, or empty bytes) breaks the
loop. Both the loop and the `self.analyze(lines)` call sit inside
`try: ... except Exception as e: logging.error(...)`, after which the
method returns normally. The successive `expect` results are the input
stream `outputs`; an exhausted stream stands for `expect` returning `None`
from then on. -/

namespace AnalyzeConsoleTest

/-- The line-capture loop: each truthy `expect` result is stripped and
kept, the first falsy result (`None` or empty bytes — Python truthiness)
ends the loop. -/
def captureLines : List (Option Bytes) → List Bytes
  | [] => []
  | none :: _ => []
  | some out :: rest =>
    if out = [] then [] else pyStrip out :: captureLines rest

/-- `AnalyzeConsoleTest.oneshot_test(board)`: capture the lines, feed them
to the scenario's `analyze`, and catch any exception, logging it; the
method returns normally either way. -/
def oneshot_test (outputs : List (Option Bytes))
    (analyze : List Bytes → Except String Unit) : Except String Unit :=
  match analyze (captureLines outputs) with
  | .ok _ => .ok ()
  | .error _ => .ok ()

end AnalyzeConsoleTest

/-! ## OneshotTest.test (tools/hwci/utils/test_helpers/oneshot.py lines 8-16,
and identically tools/hwci/tests/console_hello_test.py lines 13-21)

`test(board)` runs `board.erase_board()`, `board.serial.flush_buffer()`,
`board.flash_kernel()`, `board.flash_app(app)` for each app in order, then
`self.oneshot_test(board)`. Each board operation may raise; a raise aborts
the sequence. We model the board as a behaviour (which operations fail)
and `test` as the trace of operations it completes, paired with its
outcome. -/

/-- One completed board-facing operation of `OneshotTest.test`. -/
inductive BoardEvent where
  | eraseDone
  | flushDone
  | kernelFlashed
  | appFlashed (app : String)
  | observed
deriving DecidableEq, Repr

/-- A board double for `OneshotTest.test`: which lifecycle operations
raise. -/
structure BoardSim where
  eraseFails : Bool
  kernelFails : Bool
  appFails : String → Bool

/-- The `for app in self.apps: board.flash_app(app)` loop: events of the
apps flashed, and the outcome (the first failing app raises). -/
def flashApps (b : BoardSim) : List String → List BoardEvent × Except String Unit
  | [] => ([], .ok ())
  | a :: rest =>
    if b.appFails a then ([], .error ("flash_app failed: " ++ a))
    else (.appFlashed a :: (flashApps b rest).1, (flashApps b rest).2)

/-- `OneshotTest.test(board)`: the trace of completed operations and the
outcome. `erase_board`, then `serial.flush_buffer`, then `flash_kernel`,
then the `flash_app` loop, then the observation step `oneshot_test`. -/
def OneshotTest.test (b : BoardSim) (apps : List String) :
    List BoardEvent × Except String Unit :=
  if b.eraseFails then ([], .error "erase_board failed")
  else if b.kernelFails then ([.eraseDone, .flushDone], .error "flash_kernel failed")
  else
    match (flashApps b apps).2 with
    | .error e =>
      ([.eraseDone, .flushDone, .kernelFlashed] ++ (flashApps b apps).1, .error e)
    | .ok _ =>
      ([.eraseDone, .flushDone, .kernelFlashed] ++ (flashApps b apps).1 ++ [.observed],
        .ok ())

/-! ## The driver (tools/hwci/core/main.py lines 43-51)

```
try:
    test.test(board)
    logging.info("Test completed successfully")
except Exception as e:
    logging.exception("An error occurred during test execution")
    sys.exit(1)
finally:
    board.serial.close()
```

`sys.exit(1)` raises `SystemExit(1)`; the `finally` block runs on every
path, and the process exit code is 0 on a normal return of `main`, the
carried code on an escaping `SystemExit`, 1 on any other uncaught
exception. The test's behaviour is abstracted as its outcome. -/

/-- A Python computation's outcome: a value, or a raised exception. -/
inductive PyOutcome (ε : Type) (α : Type) where
  | ok (a : α)
  | exc (e : ε)
deriving DecidableEq, Repr

/-- Python `try`/`except`/`finally` sequencing over explicit state: the
handler runs on an exception from the body (and may itself raise, as
`sys.exit` does); the `finally` block runs on every path. -/
def tryExceptFinally {σ ε α : Type} (body : σ → σ × PyOutcome ε α)
    (handler : ε → σ → σ × PyOutcome ε α) (fin : σ → σ) (s : σ) :
    σ × PyOutcome ε α :=
  match body s with
  | (s1, .ok a) => (fin s1, .ok a)
  | (s1, .exc e) =>
    match handler e s1 with
    | (s2, r) => (fin s2, r)

/-- An exception escaping the driver's `try` block: `SystemExit` from
`sys.exit(code)`, or an ordinary Python exception. -/
inductive DriverExc where
  | sysExit (code : Nat)
  | pyError (msg : String)
deriving DecidableEq, Repr

/-- Observable driver state: how many times `board.serial.close()` ran,
and the log. -/
structure DriverState where
  closes : Nat
  logs : List String
deriving DecidableEq, Repr

/-- Append a log line. -/
def DriverState.log (s : DriverState) (m : String) : DriverState :=
  { s with logs := s.logs ++ [m] }

/-- `board.serial.close()` on the test double: bump the call count. -/
def DriverState.closeSerial (s : DriverState) : DriverState :=
  { s with closes := s.closes + 1 }

/-- The process exit code determined by what escapes `main`'s run block:
0 on a normal return, the carried code on `SystemExit`, 1 on an uncaught
exception. -/
def exitCode : PyOutcome DriverExc Unit → Nat
  | .ok _ => 0
  | .exc (.sysExit c) => c
  | .exc (.pyError _) => 1

/-- The run block of `main` (main.py lines 43-51): run the test (behaviour
abstracted as its outcome `tr`), log success, convert an exception to
`sys.exit(1)` in the handler, and close the board's serial transport in
the `finally` block. Returns the final state and the process exit code. -/
def driverMain (tr : PyOutcome String Unit) (s0 : DriverState) :
    DriverState × Nat :=
  let r := tryExceptFinally
    (fun s =>
      match tr with
      | .ok _ => (s.log "Test completed successfully", .ok ())
      | .exc m => (s, .exc (DriverExc.pyError m)))
    (fun _ s =>
      (s.log "An error occurred during test execution", .exc (DriverExc.sysExit 1)))
    (fun s => s.closeSerial)
    s0
  (r.1, exitCode r.2)

/-! ## Concrete console inputs used to evaluate the models -/

/-- A console line reporting a fire of alarm 1 (alarm index, now,
expiration). -/
def alarm1Line : Bytes := "1 100 200".data

/-- A console line reporting a fire of alarm 2. -/
def alarm2Line : Bytes := "2 150 300".data

/-- A captured sequence where alarm 1 fired 10 times and alarm 2 fired 5
times (ratio exactly 2.0). -/
def tenToFive : List Bytes :=
  List.replicate 10 alarm1Line ++ List.replicate 5 alarm2Line

/-- A captured sequence where alarm 1 fired 10 times and alarm 2 fired 2
times (ratio 5.0). -/
def tenToTwo : List Bytes :=
  List.replicate 10 alarm1Line ++ List.replicate 2 alarm2Line

/-- A captured sequence where only alarm 1 fired (alarm 2 count 0). -/
def tenToZero : List Bytes := List.replicate 10 alarm1Line

/-- A captured sequence with no ADC marker line at all: no driver-present
marker, no reading, no driver-not-present marker. -/
def adcPlainLines : List Bytes := ["Initialization complete.".data]

/-! ## Helper lemmas about the mock transport's polling loop -/

/-- With an empty queue, every iteration of the polling loop waits out one
`buffer.get(timeout=0.1)` and re-tests the deadline; the loop ends with the
sentinel and an unchanged state. -/
theorem mockExpect_empty_buffer (fuel : Nat) (acc pat : Bytes) :
    MockSerialPort.expect fuel ⟨[], acc⟩ pat = (none, ⟨[], acc⟩) := by
  induction fuel with
  | zero => rfl
  | succ n ih => simpa [MockSerialPort.expect] using ih

/-- With a non-empty queue whose concatenation completes a match, the
polling loop returns a match once given at least one iteration per queued
chunk. -/
theorem mockExpect_finds (pat : Bytes) :
    ∀ (chunks : List Bytes) (fuel : Nat) (acc : Bytes),
      chunks ≠ [] →
      chunks.length ≤ fuel →
      pat <:+: acc ++ chunks.flatten →
      ∃ m s', MockSerialPort.expect fuel ⟨chunks, acc⟩ pat = (some m, s') ∧
        pat <:+: m := by
  intro chunks
  induction chunks with
  | nil => intro fuel acc hne _ _; exact absurd rfl hne
  | cons d rest ih =>
    intro fuel acc _ hlen hmatch
    cases fuel with
    | zero => simp at hlen
    | succ n =>
      by_cases hd : pat <:+: acc ++ d
      · exact ⟨acc ++ d, ⟨rest, acc ++ d⟩, by simp [MockSerialPort.expect, hd], hd⟩
      · have hrest : rest ≠ [] := by
          rintro rfl
          simp only [List.flatten_cons, List.flatten_nil, List.append_nil] at hmatch
          exact hd hmatch
        have hmatch' : pat <:+: (acc ++ d) ++ rest.flatten := by
          simpa [List.append_assoc] using hmatch
        have hlen' : rest.length ≤ n := by
          simp only [List.length_cons] at hlen; omega
        obtain ⟨m, s', heq, hm⟩ := ih n (acc ++ d) hrest hlen' hmatch'
        exact ⟨m, s', by simp [MockSerialPort.expect, hd, heq], hm⟩

/-- If no prefix of the queued data completes a match, the polling loop
times out with the sentinel. -/
theorem mockExpect_never_matches (pat : Bytes) :
    ∀ (fuel : Nat) (s : MockSerialPort),
      (∀ k, k ≤ s.buffer.length →
        ¬ pat <:+: s.accumulated_data ++ (s.buffer.take k).flatten) →
      (MockSerialPort.expect fuel s pat).1 = none := by
  intro fuel
  induction fuel with
  | zero => intro s _; rfl
  | succ n ih =>
    intro s h
    obtain ⟨buf, acc⟩ := s
    cases buf with
    | nil => rw [mockExpect_empty_buffer]
    | cons d rest =>
      have hd : ¬ pat <:+: acc ++ d := by
        have := h 1 (by simp)
        simpa using this
      have hrec := ih ⟨rest, acc ++ d⟩ (by
        intro k hk
        have hk' : k ≤ rest.length := hk
        have := h (k + 1) (by simp only [List.length_cons]; omega)
        simpa [List.append_assoc] using this)
      simpa [MockSerialPort.expect, hd] using hrec

/-- Across one `expect` call the accumulated buffer only grows, and a
successful match returns exactly the final accumulated buffer. -/
theorem mockExpect_state (pat : Bytes) :
    ∀ (fuel : Nat) (s : MockSerialPort) (r : Option Bytes) (s' : MockSerialPort),
      MockSerialPort.expect fuel s pat = (r, s') →
      s.accumulated_data <+: s'.accumulated_data ∧
      (∀ m, r = some m → m = s'.accumulated_data) := by
  intro fuel
  induction fuel with
  | zero =>
    intro s r s' h
    obtain ⟨rfl, rfl⟩ : r = none ∧ s' = s := by
      simpa [MockSerialPort.expect, And.comm] using h.symm
    exact ⟨List.prefix_rfl, by simp⟩
  | succ n ih =>
    intro s r s' h
    obtain ⟨buf, acc⟩ := s
    cases buf with
    | nil =>
      rw [mockExpect_empty_buffer] at h
      obtain ⟨rfl, rfl⟩ : r = none ∧ s' = ⟨[], acc⟩ := by
        simpa [And.comm] using h.symm
      exact ⟨List.prefix_rfl, by simp⟩
    | cons d rest =>
      by_cases hd : pat <:+: acc ++ d
      · simp only [MockSerialPort.expect, hd, if_pos] at h
        obtain ⟨rfl, rfl⟩ : r = some (acc ++ d) ∧ s' = ⟨rest, acc ++ d⟩ := by
          simpa [And.comm] using h.symm
        exact ⟨List.prefix_append acc d, by simp⟩
      · simp only [MockSerialPort.expect, hd, if_neg, not_false_iff] at h
        obtain ⟨h1, h2⟩ := ih ⟨rest, acc ++ d⟩ r s' h
        exact ⟨List.IsPrefix.trans (List.prefix_append acc d) h1, h2⟩

/-! ## Helper lemmas about the analysis predicates and the oneshot trace -/

/-- When no line carries the reading marker or the no-driver marker, the
`AdcTest` scan walks the whole list, accruing the driver flag. -/
theorem adcScan_clean (lines : List Bytes) :
    ∀ d : Bool,
      (∀ l ∈ lines, ¬ AdcTest.sReading <:+: l ∧ ¬ AdcTest.sNoDriver <:+: l) →
      AdcTest.scan lines d false =
        .fell (d || lines.any fun l => decide (AdcTest.sDriverExists <:+: l)) false := by
  induction lines with
  | nil => intro d _; simp [AdcTest.scan]
  | cons line rest ih =>
    intro d h
    obtain ⟨h1, h2⟩ := h line (by simp)
    have hrest := fun l hl => h l (List.mem_cons_of_mem _ hl)
    simp [AdcTest.scan, h1, h2, ih _ hrest, Bool.or_assoc]

/-- Conversely, the `AdcTest` scan falls out of its loop with an unset
readings flag only when no line carries the reading or no-driver marker,
and then the driver flag is the disjunction over the lines. -/
theorem adcScan_fell_false (lines : List Bytes) :
    ∀ d e : Bool,
      AdcTest.scan lines d false = .fell e false →
      (∀ l ∈ lines, ¬ AdcTest.sReading <:+: l ∧ ¬ AdcTest.sNoDriver <:+: l) ∧
      e = (d || lines.any fun l => decide (AdcTest.sDriverExists <:+: l)) := by
  induction lines with
  | nil =>
    intro d e h
    simp only [AdcTest.scan, AdcTest.Scan.fell.injEq] at h
    simp [h.1]
  | cons line rest ih =>
    intro d e h
    by_cases hr : AdcTest.sReading <:+: line
    · simp [AdcTest.scan, hr] at h
    · by_cases hn : AdcTest.sNoDriver <:+: line
      · simp [AdcTest.scan, hr, hn] at h
      · simp only [AdcTest.scan, hr, hn, if_false, if_neg, not_false_iff] at h
        obtain ⟨hrest, he⟩ := ih _ _ h
        refine ⟨?_, ?_⟩
        · intro l hl
          rcases List.mem_cons.mp hl with rfl | hl'
          · exact ⟨hr, hn⟩
          · exact hrest l hl'
        · simp [he, Bool.or_assoc]

/-- `AdcTest.analyze` produces either a pass or its single failure
message. -/
theorem adcAnalyze_cases (lines : List Bytes) :
    AdcTest.analyze lines = .ok () ∨
    AdcTest.analyze lines = .error "ADC Test failed: Driver found but no readings." := by
  unfold AdcTest.analyze
  cases AdcTest.scan lines false false with
  | earlyPass => exact Or.inl rfl
  | fell d r =>
    cases d <;> cases r <;> simp

/-- `MultiAlarmSimpleTest.analyze` passes exactly when alarm 1 fired at
least twice, alarm 2 at least once, and alarm 1 at least twice as often as
alarm 2. -/
theorem multiAlarm_ok_iff (lines : List Bytes) :
    MultiAlarmSimpleTest.analyze lines = .ok () ↔
      (2 ≤ (MultiAlarmSimpleTest.countAlarms lines).1 ∧
       1 ≤ (MultiAlarmSimpleTest.countAlarms lines).2 ∧
       2 * (MultiAlarmSimpleTest.countAlarms lines).2 ≤
         (MultiAlarmSimpleTest.countAlarms lines).1) := by
  unfold MultiAlarmSimpleTest.analyze
  by_cases h1 : (MultiAlarmSimpleTest.countAlarms lines).1 < 2 ∨
      (MultiAlarmSimpleTest.countAlarms lines).2 < 1
  · simp only [h1, if_true]
    constructor
    · intro h; exact absurd h (by simp)
    · intro h; omega
  · by_cases h2 : (MultiAlarmSimpleTest.countAlarms lines).1 <
        2 * (MultiAlarmSimpleTest.countAlarms lines).2
    · simp only [h1, h2, if_false, if_true]
      constructor
      · intro h; exact absurd h (by simp)
      · intro h; omega
    · simp only [h1, h2, if_false]
      constructor
      · intro _; omega
      · intro _; trivial

/-- The events of the `flash_app` loop: the apps actually flashed are a
prefix of the configured list, in order, and all of them when the loop
completes without an error. -/
theorem flashApps_shape (b : BoardSim) :
    ∀ apps : List String,
      ∃ l, (flashApps b apps).1 = l.map BoardEvent.appFlashed ∧ l <+: apps ∧
        ((flashApps b apps).2 = .ok () → l = apps) := by
  intro apps
  induction apps with
  | nil => exact ⟨[], rfl, List.prefix_rfl, fun _ => rfl⟩
  | cons a rest ih =>
    by_cases hf : b.appFails a
    · exact ⟨[], by simp [flashApps, hf], by simp,
        fun hok => absurd hok (by simp [flashApps, hf])⟩
    · obtain ⟨l, h1, h2, h3⟩ := ih
      refine ⟨a :: l, by simp [flashApps, hf, h1], ?_, ?_⟩
      · exact List.cons_prefix_cons.mpr ⟨rfl, h2⟩
      · intro hok
        have : (flashApps b rest).2 = .ok () := by
          simpa [flashApps, hf] using hok
        simp [h3 this]

/-- Writing a chunk sequence into a fresh mock transport queues it in FIFO
order onto the write buffer, touching nothing else. -/
theorem writeAll_state :
    ∀ (chunks : List Bytes) (q : List Bytes) (acc : Bytes),
      chunks.foldl MockSerialPort.write ⟨q, acc⟩ = ⟨q ++ chunks, acc⟩ := by
  intro chunks
  induction chunks with
  | nil => intro q acc; simp
  | cons d rest ih =>
    intro q acc
    simpa [MockSerialPort.write, List.append_assoc] using ih (q ++ [d]) acc

/-! ## The claims -/

/-- C1: the claim says an error raised by a scenario's `analyze(lines)`
predicate propagates out of `test(board)` unmodified, so that the driver
observes it. The code does the opposite: `AnalyzeConsoleTest.oneshot_test`
runs `self.analyze(lines)` inside its `try`/`except Exception` block, so
every analysis error is caught, logged and discarded and the method
returns normally — shown in general, and at the failing input of a board
with no console output running `MultiAlarmSimpleTest`, whose `analyze`
raises yet whose run completes as a pass. -/
theorem analyzeConsole_swallows_analyze_error :
    (∀ (outputs : List (Option Bytes)) (analyze : List Bytes → Except String Unit),
      AnalyzeConsoleTest.oneshot_test outputs analyze = .ok ()) ∧
    MultiAlarmSimpleTest.analyze (AnalyzeConsoleTest.captureLines [none]) =
      .error "MultiAlarmSimpleTest failed: Not enough alarms fired" ∧
    AnalyzeConsoleTest.oneshot_test [none] MultiAlarmSimpleTest.analyze = .ok () := by
  refine ⟨fun outputs analyze => ?_, by decide, by decide⟩
  unfold AnalyzeConsoleTest.oneshot_test
  split <;> rfl

/-- C2 counterexample: with alarm 1 at count 10 and alarm 2 at count 2
(ratio 5.0), `MultiAlarmSimpleTest.analyze` passes instead of raising —
the code checks only the lower bound `count1 >= 2 * count2`. -/
theorem multiAlarm_ratio_five_passes :
    MultiAlarmSimpleTest.countAlarms tenToTwo = (10, 2) ∧
    MultiAlarmSimpleTest.analyze tenToTwo = .ok () :=
  ⟨by decide, by decide⟩

/-- C2 as amended: the multi-alarm analysis passes at counts (10, 5); it
also passes at counts (10, 2), because it enforces only the lower-bound
checks `count1 >= 2`, `count2 >= 1` and `count1 >= 2 * count2`; it raises
when alarm 2 never fired; in general it passes exactly when those three
lower bounds hold. -/
theorem multiAlarm_analyze_amended :
    (MultiAlarmSimpleTest.countAlarms tenToFive = (10, 5) ∧
      MultiAlarmSimpleTest.analyze tenToFive = .ok ()) ∧
    (MultiAlarmSimpleTest.countAlarms tenToTwo = (10, 2) ∧
      MultiAlarmSimpleTest.analyze tenToTwo = .ok ()) ∧
    (MultiAlarmSimpleTest.countAlarms tenToZero = (10, 0) ∧
      MultiAlarmSimpleTest.analyze tenToZero =
        .error "MultiAlarmSimpleTest failed: Not enough alarms fired") ∧
    ∀ lines : List Bytes,
      MultiAlarmSimpleTest.analyze lines = .ok () ↔
        (2 ≤ (MultiAlarmSimpleTest.countAlarms lines).1 ∧
         1 ≤ (MultiAlarmSimpleTest.countAlarms lines).2 ∧
         2 * (MultiAlarmSimpleTest.countAlarms lines).2 ≤
           (MultiAlarmSimpleTest.countAlarms lines).1) :=
  ⟨⟨by decide, by decide⟩, ⟨by decide, by decide⟩, ⟨by decide, by decide⟩,
    multiAlarm_ok_iff⟩

/-- C3: on both transports, `expect` reports "no match within the timeout"
with the sentinel `None` rather than an exception: the real transport maps
both the pexpect timeout and the transport-level EOF to `None` (and
returns non-`None` only on a match), and the mock transport returns `None`
whenever no prefix of the queued data completes a match. -/
theorem expect_no_match_is_sentinel :
    (∀ outcome, SerialPort.expect outcome = none ↔
      (outcome = PexpectOutcome.timeout ∨ outcome = PexpectOutcome.eof)) ∧
    ∀ (fuel : Nat) (s : MockSerialPort) (pat : Bytes),
      (∀ k, k ≤ s.buffer.length →
        ¬ pat <:+: s.accumulated_data ++ (s.buffer.take k).flatten) →
      (MockSerialPort.expect fuel s pat).1 = none := by
  constructor
  · intro outcome
    cases outcome <;> simp [SerialPort.expect]
  · intro fuel s pat h
    exact mockExpect_never_matches pat fuel s h

/-- C3 witness: a mock transport holding chunks "a", "b" and probed for
"z" reports the sentinel. -/
theorem expect_no_match_is_sentinel_witness :
    (MockSerialPort.expect 20 ⟨[['a'], ['b']], []⟩ ['z']).1 = none :=
  expect_no_match_is_sentinel.2 20 ⟨[['a'], ['b']], []⟩ ['z'] (by decide)

/-- C4: chunking invariance of the mock transport. For every non-empty
string, every split of it into chunks, and every pattern occurring as a
substring of the string: writing the chunks in order and then calling
`expect` (with a timeout of at least one poll per chunk) returns a
non-sentinel match whose bytes contain the pattern, regardless of the
split. -/
theorem mock_chunking_invariance (chunks : List Bytes) (pat : Bytes) (fuel : Nat)
    (hne : chunks.flatten ≠ [])
    (hpat : pat <:+: chunks.flatten)
    (hfuel : chunks.length ≤ fuel) :
    ∃ m s', MockSerialPort.expect fuel
        (chunks.foldl MockSerialPort.write MockSerialPort.init) pat = (some m, s') ∧
      pat <:+: m := by
  have hchunks : chunks ≠ [] := by rintro rfl; exact hne rfl
  have hstate : chunks.foldl MockSerialPort.write MockSerialPort.init = ⟨chunks, []⟩ := by
    simpa using writeAll_state chunks [] []
  rw [hstate]
  exact mockExpect_finds pat chunks fuel [] hchunks hfuel (by simpa using hpat)

/-- C4 witness: "hi" split into "h" then "i" is matched by the pattern
"hi" after two polls. -/
theorem mock_chunking_invariance_witness :
    ∃ m s', MockSerialPort.expect 2
        ([['h'], ['i']].foldl MockSerialPort.write MockSerialPort.init)
        ['h', 'i'] = (some m, s') ∧ ['h', 'i'] <:+: m :=
  mock_chunking_invariance [['h'], ['i']] ['h', 'i'] 2 (by decide) (by decide)
    (by decide)

/-- C5: whatever the outcome of `test.test(board)` — normal return or any
raised exception — the driver's `finally` block closes the board's serial
transport exactly once, and the process exit code is 0 on a normal return
and 1 on an exception. -/
theorem driver_always_closes_once (tr : PyOutcome String Unit) (s0 : DriverState) :
    (driverMain tr s0).1.closes = s0.closes + 1 ∧
    (driverMain tr s0).2 = (match tr with | .ok _ => 0 | .exc _ => 1) := by
  cases tr <;>
    simp [driverMain, tryExceptFinally, exitCode, DriverState.closeSerial,
      DriverState.log]

/-- C6: the call sequence `OneshotTest.test` issues to any board is a
prefix of erase, flush, flash-kernel, the apps in order, observe (a step
that raises cuts the sequence off there); in particular every `flash_app`
call is preceded by a completed `erase_board`, buffer flush and
`flash_kernel`. -/
theorem oneshot_lifecycle_ordering (b : BoardSim) (apps : List String) :
    (OneshotTest.test b apps).1 <+:
      ([BoardEvent.eraseDone, BoardEvent.flushDone, BoardEvent.kernelFlashed] ++
        apps.map BoardEvent.appFlashed ++ [BoardEvent.observed]) ∧
    ∀ i a, (OneshotTest.test b apps).1[i]? = some (BoardEvent.appFlashed a) →
      BoardEvent.eraseDone ∈ (OneshotTest.test b apps).1.take i ∧
      BoardEvent.flushDone ∈ (OneshotTest.test b apps).1.take i ∧
      BoardEvent.kernelFlashed ∈ (OneshotTest.test b apps).1.take i := by
  have key : ∀ (rest : List BoardEvent) (i : Nat) (a : String),
      (BoardEvent.eraseDone :: BoardEvent.flushDone :: BoardEvent.kernelFlashed ::
        rest)[i]? = some (BoardEvent.appFlashed a) →
      BoardEvent.eraseDone ∈ (BoardEvent.eraseDone :: BoardEvent.flushDone ::
        BoardEvent.kernelFlashed :: rest).take i ∧
      BoardEvent.flushDone ∈ (BoardEvent.eraseDone :: BoardEvent.flushDone ::
        BoardEvent.kernelFlashed :: rest).take i ∧
      BoardEvent.kernelFlashed ∈ (BoardEvent.eraseDone :: BoardEvent.flushDone ::
        BoardEvent.kernelFlashed :: rest).take i := by
    intro rest i a h
    match i with
    | 0 => simp at h
    | 1 => simp at h
    | 2 => simp at h
    | i + 3 => simp [List.take_succ_cons]
  by_cases he : b.eraseFails
  · refine ⟨by simp [OneshotTest.test, he], ?_⟩
    intro i a h
    simp [OneshotTest.test, he] at h
  · by_cases hk : b.kernelFails
    · refine ⟨?_, ?_⟩
      · simp only [OneshotTest.test, he, hk, if_true, if_false]
        exact List.cons_prefix_cons.mpr ⟨rfl,
          List.cons_prefix_cons.mpr ⟨rfl, List.nil_prefix⟩⟩
      · intro i a h
        simp only [OneshotTest.test, he, hk, if_true, if_false] at h
        match i with
        | 0 => simp at h
        | 1 => simp at h
        | _ + 2 => simp at h
    · obtain ⟨l, h1, h2, h3⟩ := flashApps_shape b apps
      cases hr : (flashApps b apps).2 with
      | error e =>
        have htr : (OneshotTest.test b apps).1 =
            [BoardEvent.eraseDone, BoardEvent.flushDone, BoardEvent.kernelFlashed] ++
              (flashApps b apps).1 := by
          simp [OneshotTest.test, he, hk, hr]
        refine ⟨?_, ?_⟩
        · rw [htr, h1]
          have hmap : List.map BoardEvent.appFlashed l <+:
              List.map BoardEvent.appFlashed apps := h2.map BoardEvent.appFlashed
          calc [BoardEvent.eraseDone, BoardEvent.flushDone, BoardEvent.kernelFlashed]
                ++ List.map BoardEvent.appFlashed l
              <+: [BoardEvent.eraseDone, BoardEvent.flushDone, BoardEvent.kernelFlashed]
                ++ List.map BoardEvent.appFlashed apps :=
                (List.prefix_append_right_inj _).mpr hmap
            _ <+: [BoardEvent.eraseDone, BoardEvent.flushDone, BoardEvent.kernelFlashed]
                ++ List.map BoardEvent.appFlashed apps ++ [BoardEvent.observed] := by
                rw [List.append_assoc]
                exact (List.prefix_append_right_inj _).mpr
                  (List.prefix_append _ _)
        · intro i a h
          rw [htr] at h ⊢
          exact key _ i a h
      | ok u =>
        cases u
        have htr : (OneshotTest.test b apps).1 =
            [BoardEvent.eraseDone, BoardEvent.flushDone, BoardEvent.kernelFlashed] ++
              (flashApps b apps).1 ++ [BoardEvent.observed] := by
          simp [OneshotTest.test, he, hk, hr]
        refine ⟨?_, ?_⟩
        · rw [htr, h1, h3 hr]
        · intro i a h
          rw [htr] at h ⊢
          rw [List.append_assoc] at h ⊢
          exact key _ i a h

/-- C6 witness: on a board where nothing fails and one app is configured,
the app-flash event sits at index 3, after erase, flush and
flash-kernel. -/
theorem oneshot_lifecycle_ordering_witness :
    BoardEvent.eraseDone ∈
      ((OneshotTest.test ⟨false, false, fun _ => false⟩ ["app"]).1.take 3) :=
  ((oneshot_lifecycle_ordering ⟨false, false, fun _ => false⟩ ["app"]).2 3 "app"
    (by decide)).1

/-- C7 counterexample: a captured sequence with no driver-not-present
marker and no reading line on which `AdcTest.analyze` nevertheless passes
— the claim predicted a raised failure for exactly this input. -/
theorem adc_passes_without_reading_or_marker :
    (∀ l ∈ adcPlainLines, ¬ AdcTest.sNoDriver <:+: l) ∧
    (∀ l ∈ adcPlainLines, ¬ AdcTest.sReading <:+: l) ∧
    AdcTest.analyze adcPlainLines = .ok () :=
  ⟨by decide, by decide, by decide⟩

/-- C7 as amended: if a line containing "No ADC driver!" appears, `analyze`
passes; otherwise `analyze` raises exactly when some line contains the
driver-present marker "ADC driver exists" and no line contains an
"ADC Reading:" line — in particular, when neither driver marker appears
at all, `analyze` passes even with no reading line. -/
theorem adc_analyze_characterized :
    (∀ lines : List Bytes, (∃ l ∈ lines, AdcTest.sNoDriver <:+: l) →
      AdcTest.analyze lines = .ok ()) ∧
    ∀ lines : List Bytes,
      AdcTest.analyze lines = .error "ADC Test failed: Driver found but no readings." ↔
        ((∃ l ∈ lines, AdcTest.sDriverExists <:+: l) ∧
         (∀ l ∈ lines, ¬ AdcTest.sReading <:+: l) ∧
         (∀ l ∈ lines, ¬ AdcTest.sNoDriver <:+: l)) := by
  have hiff : ∀ lines : List Bytes,
      AdcTest.analyze lines = .error "ADC Test failed: Driver found but no readings." ↔
        ((∃ l ∈ lines, AdcTest.sDriverExists <:+: l) ∧
         (∀ l ∈ lines, ¬ AdcTest.sReading <:+: l) ∧
         (∀ l ∈ lines, ¬ AdcTest.sNoDriver <:+: l)) := by
    intro lines
    constructor
    · intro h
      unfold AdcTest.analyze at h
      generalize hscan : AdcTest.scan lines false false = sc at h
      cases sc with
      | earlyPass => exact absurd h (by simp)
      | fell d r =>
        cases d with
        | false => simp at h
        | true =>
          cases r with
          | true => simp at h
          | false =>
            obtain ⟨hclean, he⟩ := adcScan_fell_false lines false true hscan
            refine ⟨?_, fun l hl => (hclean l hl).1, fun l hl => (hclean l hl).2⟩
            have hany : lines.any (fun l => decide (AdcTest.sDriverExists <:+: l)) =
                true := by simpa using he.symm
            simpa using hany
    · rintro ⟨⟨l0, hl0, hdrv⟩, hnoread, hnodrv⟩
      have hclean : ∀ l ∈ lines,
          ¬ AdcTest.sReading <:+: l ∧ ¬ AdcTest.sNoDriver <:+: l :=
        fun l hl => ⟨hnoread l hl, hnodrv l hl⟩
      have hany : lines.any (fun l => decide (AdcTest.sDriverExists <:+: l)) = true := by
        simp only [List.any_eq_true, decide_eq_true_eq]
        exact ⟨l0, hl0, hdrv⟩
      have hscan := adcScan_clean lines false hclean
      rw [hany] at hscan
      unfold AdcTest.analyze
      rw [hscan]
      simp
  refine ⟨?_, hiff⟩
  rintro lines ⟨l0, hl0, hnd⟩
  rcases adcAnalyze_cases lines with h | h
  · exact h
  · exact absurd hnd (((hiff lines).mp h).2.2 l0 hl0)

/-- C7 amended-claim witness: on a sequence announcing the driver but
showing no reading, `analyze` raises the no-readings failure. -/
theorem adc_analyze_characterized_witness :
    AdcTest.analyze ["ADC driver exists".data] =
      .error "ADC Test failed: Driver found but no readings." :=
  (adc_analyze_characterized.2 ["ADC driver exists".data]).mpr (by decide)

/-- C8: on the mock transport with no data available (empty write queue),
`expect` with any positive timeout terminates with the no-match sentinel
once the deadline passes — the polling loop runs at most one bounded
0.1-second poll per fuel unit and never blocks indefinitely — and leaves
the state untouched. -/
theorem mockExpect_timeout_bound (fuel : Nat) (s : MockSerialPort) (pat : Bytes)
    (_hfuel : 0 < fuel) (hempty : s.buffer = []) :
    MockSerialPort.expect fuel s pat = (none, s) := by
  obtain ⟨buf, acc⟩ := s
  cases hempty
  exact mockExpect_empty_buffer fuel acc pat

/-- C8 witness: fifty polls of an idle mock transport return the
sentinel. -/
theorem mockExpect_timeout_bound_witness :
    MockSerialPort.expect 50 ⟨[], []⟩ ['x'] = (none, ⟨[], []⟩) :=
  mockExpect_timeout_bound 50 ⟨[], []⟩ ['x'] (by decide) rfl

/-- C9: the mock transport's `expect` tests the pattern only after
dequeuing a new chunk: with an empty write queue it returns the sentinel
for the whole timeout window even when the already-accumulated data
matches the pattern — a match against old data alone is never reported. -/
theorem mockExpect_stale_data_no_match (fuel : Nat) (acc pat : Bytes)
    (_hstale : pat <:+: acc) :
    (MockSerialPort.expect fuel ⟨[], acc⟩ pat).1 = none := by
  rw [mockExpect_empty_buffer]

/-- C9 witness: data "hi" already accumulated matches the pattern "hi",
yet `expect` with an empty queue reports the sentinel. -/
theorem mockExpect_stale_data_no_match_witness :
    (MockSerialPort.expect 10 ⟨[], ['h', 'i']⟩ ['h', 'i']).1 = none :=
  mockExpect_stale_data_no_match 10 ['h', 'i'] ['h', 'i'] (by decide)

/-- C10: on a successful match the mock transport's `expect` returns the
entire accumulated buffer, which is exactly the final `accumulated_data`
(the matched bytes are not consumed); across any `expect` call the old
accumulated data stays a prefix of the new; `flush_buffer` is the only
operation that empties it, and `write` leaves it untouched. -/
theorem mockExpect_buffer_frame (fuel : Nat) (s : MockSerialPort) (pat : Bytes)
    (r : Option Bytes) (s' : MockSerialPort)
    (h : MockSerialPort.expect fuel s pat = (r, s')) :
    s.accumulated_data <+: s'.accumulated_data ∧
    (∀ m, r = some m → m = s'.accumulated_data) ∧
    (MockSerialPort.flush_buffer s').accumulated_data = [] ∧
    ∀ d, (MockSerialPort.write s' d).accumulated_data = s'.accumulated_data := by
  obtain ⟨h1, h2⟩ := mockExpect_state pat fuel s r s' h
  exact ⟨h1, h2, rfl, fun d => rfl⟩

/-- C10 witness: matching "a" against a queued chunk "a" returns the whole
(here one-chunk) accumulated buffer and keeps it in the state. -/
theorem mockExpect_buffer_frame_witness :
    ([] : Bytes) <+: ['a'] ∧
    (∀ m, some ['a'] = some m → m = ['a']) ∧
    (MockSerialPort.flush_buffer ⟨[], ['a']⟩).accumulated_data = [] ∧
    (∀ d, (MockSerialPort.write ⟨[], ['a']⟩ d).accumulated_data = ['a']) :=
  mockExpect_buffer_frame 1 ⟨[['a']], []⟩ ['a'] (some ['a']) ⟨[], ['a']⟩ (by decide)

end HwCi
